import Mathlib

/-!
# QuizApp — shallow embedding and verification

A shallow embedding of the quiz-administration backend (two near-identical
server variants; the fuller variant carries the open-answer grading logic).
Collections are modelled as lists, JS objects used as string-keyed maps as
association lists (`List (String × α)`), epoch-millisecond timestamps as `Int`,
and scores as `Int` (the grading route can add a negative delta before
clamping).  Each route handler becomes a pure function from the store state it
reads to its response together with the store state it writes back.
-/

set_option autoImplicit false

namespace QuizApp

/-- First-match lookup in a string-keyed association list, the embedding of a
JS property read `obj[k]`. -/
def lookupKey {α : Type} (k : String) : List (String × α) → Option α
  | [] => none
  | (k', v) :: rest => if k' = k then some v else lookupKey k rest

/-- The embedding of a JS property write `obj[k] = v`: replace the value of the
first entry with key `k`, or append a fresh entry when the key is absent. -/
def setKey {α : Type} (k : String) (v : α) : List (String × α) → List (String × α)
  | [] => [(k, v)]
  | (k', v') :: rest => if k' = k then (k', v) :: rest else (k', v') :: setKey k v rest

/-- A user record from `users.json`: `{id, firstName, lastName, role}`. -/
structure User where
  id : String
  firstName : String
  lastName : String
  role : String
  deriving DecidableEq, Repr

/-- A teacher-roster record from `teachers.json`. -/
structure Teacher where
  firstName : String
  lastName : String
  deriving DecidableEq, Repr

/-- A quiz session record: `{startTime, endTime}` in epoch milliseconds. -/
structure Session where
  startTime : Int
  endTime : Int
  deriving DecidableEq, Repr

/-- A question record from `questions.json`.  `correctAnswer` is present iff
the question is multiple-choice; absence is modelled as `""` (it is only ever
read on the multiple-choice branch). -/
structure Question where
  id : String
  text : String
  qtype : String
  choices : List String
  correctAnswer : String
  deriving DecidableEq, Repr

/-- A submission record as pushed by `POST /submit` and mutated by
`POST /teacher/mark-open-question`. -/
structure Submission where
  token : String
  studentName : String
  answers : List (String × String)
  openEndedAnswers : List (String × String)
  openAnswerGrades : List (String × Bool)
  score : Int
  totalMCQs : Nat
  submittedAt : String
  deriving DecidableEq, Repr

/-! ## Session gate (`GET /questions`, lines 92–107 / 104–119) -/

/-- Errors produced by the pre-question gate, both served as HTTP 403. -/
inductive GateError where
  | notStarted
  | ended
  deriving DecidableEq, Repr

/-- The gate executed at the top of `GET /questions`: no session at all fails
with "Quiz has not started yet"; otherwise the latest (last-appended) session
is checked, `now > endTime` first ("Quiz ended"), then `now < startTime`
("Quiz has not started yet"); on success the remaining time
`endTime − now` is returned. -/
def gate (sessions : List Session) (now : Int) : Except GateError Int :=
  match sessions.getLast? with
  | none => .error .notStarted
  | some latest =>
    if now > latest.endTime then .error .ended
    else if now < latest.startTime then .error .notStarted
    else .ok (latest.endTime - now)

/-- The gate as the spec words it, for refinement comparison: the `NotStarted`
conditions (no session, or `now < startTime`) are listed, and hence checked,
before the `Ended` condition `now > endTime`. -/
def gateSpec (sessions : List Session) (now : Int) : Except GateError Int :=
  match sessions.getLast? with
  | none => .error .notStarted
  | some latest =>
    if now < latest.startTime then .error .notStarted
    else if now > latest.endTime then .error .ended
    else .ok (latest.endTime - now)

/-! ## Sign-in (`POST /signin`, lines 37–67 / 32–62) -/

/-- The embedding of JS `String.prototype.toLowerCase()`: lower-case the
string character by character. -/
def jsToLower (s : String) : String :=
  ⟨s.data.map Char.toLower⟩

/-- `true` iff the two names match case-insensitively, the comparison used both
against the teacher roster and against existing user records. -/
def nameMatches (fn ln : String) (fn' ln' : String) : Bool :=
  jsToLower fn' == jsToLower fn && jsToLower ln' == jsToLower ln

/-- The sign-in handler.  `newId` stands for the fresh `uuidv4()` that would be
generated if a new user record is created.  Returns `Except` of the 400
validation error, the `{token, role}` response, and the written-back users
collection. -/
def signin (teachers : List Teacher) (users : List User) (newId : String)
    (firstName lastName : String) :
    Except Unit (String × String) × List User :=
  if firstName = "" ∨ lastName = "" then (.error (), users)
  else
    let isTeacher := teachers.any fun t => nameMatches firstName lastName t.firstName t.lastName
    match users.find? (fun u => nameMatches firstName lastName u.firstName u.lastName) with
    | some user => (.ok (user.id, user.role), users)
    | none =>
      let user : User :=
        { id := newId, firstName := firstName, lastName := lastName
          role := if isTeacher then "teacher" else "student" }
      (.ok (user.id, user.role), users ++ [user])

/-! ## Grading at submission time (`POST /submit`, lines 111–159) -/

/-- Accumulator of the `questions.forEach` loop in `POST /submit`:
mutable `score`, `totalMCQs` and the `openEndedAnswers` object. -/
structure GradeAcc where
  score : Int
  totalMCQs : Nat
  openEndedAnswers : List (String × String)
  deriving DecidableEq, Repr

/-- `true` iff the submitted answer for question `q` is truthy (present and
non-empty) and equals `q.correctAnswer` case-insensitively — the condition
`answers[q.id] && answers[q.id].toLowerCase() === q.correctAnswer.toLowerCase()`. -/
def mcqHit (answers : List (String × String)) (q : Question) : Bool :=
  match lookupKey q.id answers with
  | none => false
  | some a => a != "" && jsToLower a == jsToLower q.correctAnswer

/-- The open-ended value stored for question id `qid`:
`answers[q.id] || "No answer"` (a falsy — absent or empty — answer is replaced
by the placeholder). -/
def openValue (answers : List (String × String)) (qid : String) : String :=
  match lookupKey qid answers with
  | none => "No answer"
  | some a => if a = "" then "No answer" else a

/-- One iteration of the `questions.forEach` grading loop. -/
def gradeStep (answers : List (String × String)) (acc : GradeAcc) (q : Question) : GradeAcc :=
  if q.qtype = "multiple-choice" then
    { acc with
      totalMCQs := acc.totalMCQs + 1
      score := if mcqHit answers q then acc.score + 1 else acc.score }
  else if q.qtype = "open-ended" then
    { acc with openEndedAnswers := setKey q.id (openValue answers q.id) acc.openEndedAnswers }
  else acc

/-- The grading loop with explicit accumulator, iterating the questions once
in order. -/
def gradeLoop (answers : List (String × String)) (acc : GradeAcc) :
    List Question → GradeAcc
  | [] => acc
  | q :: rest => gradeLoop answers (gradeStep answers acc q) rest

/-- The pure grading function of `POST /submit`: starts from
`score = 0`, `totalMCQs = 0`, `openEndedAnswers = {}` and folds the questions. -/
def gradeSubmission (questions : List Question) (answers : List (String × String)) : GradeAcc :=
  gradeLoop answers { score := 0, totalMCQs := 0, openEndedAnswers := [] } questions

/-- Errors of the submit route: 400 missing fields, 403 invalid student token,
400 duplicate submission. -/
inductive SubmitError where
  | missingFields
  | invalidToken
  | duplicateSubmission
  deriving DecidableEq, Repr

/-- The `POST /submit` handler: validation, student-token resolution, duplicate
check, grading, and push of the new submission record.  `answers = none`
models an absent `answers` field in the request body.  Returns the response and
the written-back submissions collection (unchanged on every error path). -/
def submit (users : List User) (questions : List Question) (subs : List Submission)
    (token : String) (answers : Option (List (String × String))) (submittedAt : String) :
    Except SubmitError (Int × Nat) × List Submission :=
  match answers with
  | none => (.error .missingFields, subs)
  | some ans =>
    if token = "" then (.error .missingFields, subs)
    else match users.find? (fun u => u.id == token && u.role == "student") with
    | none => (.error .invalidToken, subs)
    | some user =>
      match subs.find? (fun sub => sub.token == token) with
      | some _ => (.error .duplicateSubmission, subs)
      | none =>
        let g := gradeSubmission questions ans
        let newSub : Submission :=
          { token := token
            studentName := user.firstName ++ " " ++ user.lastName
            answers := ans
            openEndedAnswers := g.openEndedAnswers
            openAnswerGrades := []
            score := g.score
            totalMCQs := g.totalMCQs
            submittedAt := submittedAt }
        (.ok (g.score, g.totalMCQs), subs ++ [newSub])

/-! ## Open-answer grading (`POST /teacher/mark-open-question`, lines 256–314) -/

/-- The response body of a successful mark-open-question call. -/
structure MarkResult where
  updatedScore : Int
  previousGrade : Option Bool
  newGrade : Bool
  scoreChange : Int
  deriving DecidableEq, Repr

/-- Errors of the mark-open-question route: 400 missing fields, 403 invalid
teacher token, 404 no submission for the student, 404 question not found. -/
inductive MarkError where
  | missingFields
  | invalidTeacher
  | submissionNotFound
  | questionNotFound
  deriving DecidableEq, Repr

/-- The score delta of lines 284–296: `undefined → newGrade ? 1 : 0`,
`true → false → −1`, `false → true → +1`, otherwise `0`. -/
def scoreDelta (currentGrade : Option Bool) (newGrade : Bool) : Int :=
  match currentGrade, newGrade with
  | none, true => 1
  | none, false => 0
  | some true, false => -1
  | some false, true => 1
  | some true, true => 0
  | some false, false => 0

/-- The in-place mutation of the found submission (lines 280–303): read the
current grade keyed by the literal question text, compute the delta, write the
new grade, add the delta to the score, and clamp the score at 0. -/
def applyGrade (sub : Submission) (questionText : String) (newGrade : Bool) :
    MarkResult × Submission :=
  let currentGrade := lookupKey questionText sub.openAnswerGrades
  let change := scoreDelta currentGrade newGrade
  let rawScore := sub.score + change
  let newScore := if rawScore < 0 then 0 else rawScore
  ({ updatedScore := newScore, previousGrade := currentGrade
     newGrade := newGrade, scoreChange := change },
   { sub with
     openAnswerGrades := setKey questionText newGrade sub.openAnswerGrades
     score := newScore })

/-- `submissions.find(...)` followed by in-place mutation of the found record:
locate the first submission whose `studentName` equals `studentName` exactly,
apply the grade to it, and leave every other record untouched.  `none` when no
submission matches. -/
def markOnList (studentName questionText : String) (newGrade : Bool) :
    List Submission → Option (MarkResult × List Submission)
  | [] => none
  | sub :: rest =>
    if sub.studentName == studentName then
      some ((applyGrade sub questionText newGrade).1,
        (applyGrade sub questionText newGrade).2 :: rest)
    else
      match markOnList studentName questionText newGrade rest with
      | none => none
      | some (r, rest') => some (r, sub :: rest')

/-- The `POST /teacher/mark-open-question` handler.  `isCorrect = none` models
an `undefined` correctness flag (400).  Error precedence follows the code:
validation, teacher token, submission lookup, then open-ended question lookup;
every error path leaves the submissions collection unchanged. -/
def markOpenAnswer (users : List User) (questions : List Question) (subs : List Submission)
    (token studentName questionText : String) (isCorrect : Option Bool) :
    Except MarkError MarkResult × List Submission :=
  match isCorrect with
  | none => (.error .missingFields, subs)
  | some newGrade =>
    if token = "" ∨ studentName = "" ∨ questionText = "" then (.error .missingFields, subs)
    else match users.find? (fun u => u.id == token && u.role == "teacher") with
    | none => (.error .invalidTeacher, subs)
    | some _ =>
      match markOnList studentName questionText newGrade subs with
      | none => (.error .submissionNotFound, subs)
      | some (r, subs') =>
        match (questions.filter fun q => q.qtype == "open-ended").find?
            (fun q => q.text == questionText) with
        | none => (.error .questionNotFound, subs)
        | some _ => (.ok r, subs')

/-! ## Teacher results (`GET /teacher/results`, lines 195–211) -/

/-- One row of the teacher results listing. -/
structure TeacherRow where
  studentName : String
  correctCount : Int
  totalQuestions : Nat
  deriving DecidableEq, Repr

/-- The `GET /teacher/results` handler after the token check: each submission
is reported as `{studentName, correctCount: sub.score, totalQuestions:
sub.totalMCQs}`. -/
def teacherResults (subs : List Submission) : List TeacherRow :=
  subs.map fun sub =>
    { studentName := sub.studentName, correctCount := sub.score
      totalQuestions := sub.totalMCQs }

/-! ## Serving questions (`GET /questions`, lines 103–107 / 115–119)

The answer-key stripping `questions.map(({correctAnswer, ...rest}) => rest)`
operates on raw JSON objects, so here questions are modelled as their raw
field lists: rest-destructuring keeps every field except `correctAnswer`. -/

/-- `({correctAnswer, ...rest}) => rest` on one raw question object. -/
def stripCorrectAnswer (fields : List (String × String)) : List (String × String) :=
  fields.filter fun kv => kv.1 != "correctAnswer"

/-- `GET /questions`: gate the request on the session clock, then serve the
remaining time and the questions with the answer key stripped. -/
def getQuestions (sessions : List Session) (now : Int)
    (rawQuestions : List (List (String × String))) :
    Except GateError (Int × List (List (String × String))) :=
  match gate sessions now with
  | .error e => .error e
  | .ok remaining => .ok (remaining, rawQuestions.map stripCorrectAnswer)

/-! ## Spec-worded variants, for refinement comparison -/

/-- The score delta as the spec's grade transition table words it, row by row:
ungraded→true gives +1, ungraded→false gives 0, true→false gives −1,
false→true gives +1, and same-verdict transitions give 0. -/
def specScoreChange (previousGrade : Option Bool) (newGrade : Bool) : Int :=
  match previousGrade, newGrade with
  | none, true => 1
  | none, false => 0
  | some true, false => -1
  | some false, true => 1
  | some true, true => 0
  | some false, false => 0

/-- The per-question MCQ condition as the spec words it: the submitted answer
for the question id exists and equals `correctAnswer` case-insensitively
(no non-emptiness requirement). -/
def mcqHitSpec (answers : List (String × String)) (q : Question) : Bool :=
  match lookupKey q.id answers with
  | none => false
  | some a => jsToLower a == jsToLower q.correctAnswer

/-- The stored open-ended value as the spec words it: the submitted answer, or
the literal `"No answer"` only when absent. -/
def openValueSpec (answers : List (String × String)) (qid : String) : String :=
  match lookupKey qid answers with
  | none => "No answer"
  | some a => a

/-- One grading iteration as the spec words it (`mcqHitSpec` / `openValueSpec`
in place of the code's truthiness tests). -/
def gradeStepSpec (answers : List (String × String)) (acc : GradeAcc) (q : Question) :
    GradeAcc :=
  if q.qtype = "multiple-choice" then
    { acc with
      totalMCQs := acc.totalMCQs + 1
      score := if mcqHitSpec answers q then acc.score + 1 else acc.score }
  else if q.qtype = "open-ended" then
    { acc with openEndedAnswers := setKey q.id (openValueSpec answers q.id) acc.openEndedAnswers }
  else acc

/-- The grading loop over the spec-worded step. -/
def gradeLoopSpec (answers : List (String × String)) (acc : GradeAcc) :
    List Question → GradeAcc
  | [] => acc
  | q :: rest => gradeLoopSpec answers (gradeStepSpec answers acc q) rest

/-- The whole grading pass as the spec words it. -/
def gradeSubmissionSpec (questions : List Question) (answers : List (String × String)) :
    GradeAcc :=
  gradeLoopSpec answers { score := 0, totalMCQs := 0, openEndedAnswers := [] } questions

/-! ## Invariants and operation sequences -/

/-- Number of open-answer grade entries currently recorded as `true`. -/
def trueCount (grades : List (String × Bool)) : Nat :=
  (grades.filter fun kv => kv.2).length

/-- At most one submission per student token. -/
def atMostOnePerToken (subs : List Submission) : Prop :=
  subs.Pairwise fun a b => a.token ≠ b.token

/-- Every persisted submission score is non-negative. -/
def allScoresNonneg (subs : List Submission) : Prop :=
  ∀ sub ∈ subs, 0 ≤ sub.score

/-- The request body of one `POST /teacher/mark-open-question` call. -/
structure MarkOp where
  token : String
  studentName : String
  questionText : String
  isCorrect : Option Bool
  deriving DecidableEq, Repr

/-- The submissions collection after a sequence of mark-open-question calls
(each call's written-back state feeds the next call). -/
def applyOps (users : List User) (questions : List Question) :
    List MarkOp → List Submission → List Submission
  | [], subs => subs
  | op :: rest, subs =>
    applyOps users questions rest
      (markOpenAnswer users questions subs op.token op.studentName op.questionText
        op.isCorrect).2

/-! # Theorems -/

/-! ## Association-list basics -/

@[simp] theorem lookupKey_nil {α : Type} (k : String) :
    lookupKey (α := α) k [] = none := rfl

@[simp] theorem lookupKey_cons {α : Type} (k k' : String) (v : α) (rest : List (String × α)) :
    lookupKey k ((k', v) :: rest) = if k' = k then some v else lookupKey k rest := rfl

@[simp] theorem setKey_nil {α : Type} (k : String) (v : α) :
    setKey (α := α) k v [] = [(k, v)] := rfl

@[simp] theorem setKey_cons {α : Type} (k k' : String) (v v' : α) (rest : List (String × α)) :
    setKey k v ((k', v') :: rest) =
      if k' = k then (k', v) :: rest else (k', v') :: setKey k v rest := rfl

theorem lookupKey_setKey_self {α : Type} (k : String) (v : α) (l : List (String × α)) :
    lookupKey k (setKey k v l) = some v := by
  induction l with
  | nil => simp
  | cons hd tl ih =>
    obtain ⟨k', v'⟩ := hd
    by_cases h : k' = k <;> simp [h, ih]

theorem lookupKey_setKey_ne {α : Type} (k k' : String) (v : α) (l : List (String × α))
    (h : k ≠ k') : lookupKey k' (setKey k v l) = lookupKey k' l := by
  induction l with
  | nil => simp [h]
  | cons hd tl ih =>
    obtain ⟨k'', v'⟩ := hd
    by_cases h1 : k'' = k
    · subst h1
      simp [h]
    · simp only [setKey_cons, if_neg h1, lookupKey_cons]
      by_cases h2 : k'' = k' <;> simp [h2, ih]

theorem lookupKey_stripCorrectAnswer_self (l : List (String × String)) :
    lookupKey "correctAnswer" (stripCorrectAnswer l) = none := by
  induction l with
  | nil => rfl
  | cons hd tl ih =>
    obtain ⟨k, v⟩ := hd
    simp only [stripCorrectAnswer, List.filter_cons] at ih ⊢
    by_cases h : k = "correctAnswer"
    · simpa [h] using ih
    · simpa [h, lookupKey] using ih

theorem lookupKey_stripCorrectAnswer_other (k : String) (hk : k ≠ "correctAnswer")
    (l : List (String × String)) :
    lookupKey k (stripCorrectAnswer l) = lookupKey k l := by
  induction l with
  | nil => rfl
  | cons hd tl ih =>
    obtain ⟨k', v⟩ := hd
    simp only [stripCorrectAnswer, List.filter_cons] at ih ⊢
    by_cases h : k' = "correctAnswer"
    · subst h
      simpa [lookupKey, Ne.symm hk] using ih
    · by_cases h2 : k' = k
      · subst h2
        simp [hk, h, lookupKey]
      · simp [h, h2, lookupKey, ih]

theorem lookupKey_true_le_trueCount (k : String) (g : List (String × Bool))
    (h : lookupKey k g = some true) : 1 ≤ trueCount g := by
  induction g with
  | nil => simp at h
  | cons hd tl ih =>
    obtain ⟨k', v⟩ := hd
    simp only [lookupKey_cons] at h
    by_cases hk : k' = k
    · rw [if_pos hk] at h
      have hv : v = true := by injection h
      subst hv
      simp [trueCount, List.filter_cons]
    · rw [if_neg hk] at h
      have := ih h
      simp only [trueCount, List.filter_cons] at this ⊢
      cases v <;> simp <;> omega

theorem trueCount_setKey (k : String) (c : Bool) (g : List (String × Bool)) :
    (trueCount (setKey k c g) : Int) = (trueCount g : Int) + scoreDelta (lookupKey k g) c := by
  induction g with
  | nil => cases c <;> simp [trueCount, setKey, scoreDelta, List.filter_cons]
  | cons hd tl ih =>
    obtain ⟨k', v⟩ := hd
    by_cases h : k' = k
    · subst h
      simp only [setKey_cons, lookupKey_cons, if_pos rfl, trueCount, List.filter_cons]
      cases v <;> cases c <;> simp [scoreDelta] <;> omega
    · simp only [setKey_cons, lookupKey_cons, if_neg h, trueCount, List.filter_cons]
      simp only [trueCount] at ih
      cases v <;> simp [ih] <;> omega

theorem scoreDelta_eq_specScoreChange (cur : Option Bool) (c : Bool) :
    scoreDelta cur c = specScoreChange cur c := by
  rcases cur with _ | b <;> cases c <;> rfl

theorem applyGrade_score_nonneg (sub : Submission) (questionText : String) (c : Bool) :
    0 ≤ ((applyGrade sub questionText c).2).score := by
  simp only [applyGrade]
  split <;> omega

/-! ## C1 — the grade transition table -/

/-- C1: for any submission satisfying the score invariant (the score dominates
the number of recorded `true` verdicts, which holds for every submission the
system can build), the mark-open-question core computes `scoreChange` exactly
per the spec's transition table, updates the score by exactly `scoreChange`
(the defensive clamp never fires), records the new verdict under the question
text, and re-establishes the invariant. -/
theorem applyGrade_transition (sub : Submission) (questionText : String) (newGrade : Bool)
    (hinv : (trueCount sub.openAnswerGrades : Int) ≤ sub.score) :
    ((applyGrade sub questionText newGrade).1).scoreChange =
      specScoreChange (lookupKey questionText sub.openAnswerGrades) newGrade
    ∧ ((applyGrade sub questionText newGrade).2).score =
        sub.score + ((applyGrade sub questionText newGrade).1).scoreChange
    ∧ lookupKey questionText ((applyGrade sub questionText newGrade).2).openAnswerGrades =
        some newGrade
    ∧ (trueCount ((applyGrade sub questionText newGrade).2).openAnswerGrades : Int) ≤
        ((applyGrade sub questionText newGrade).2).score := by
  have htc := trueCount_setKey questionText newGrade sub.openAnswerGrades
  have hraw :
      0 ≤ sub.score + scoreDelta (lookupKey questionText sub.openAnswerGrades) newGrade := by
    rcases hcur : lookupKey questionText sub.openAnswerGrades with _ | b
    · cases newGrade <;> simp [scoreDelta] <;> omega
    · cases b
      · cases newGrade <;> simp [scoreDelta] <;> omega
      · have h1 := lookupKey_true_le_trueCount questionText sub.openAnswerGrades hcur
        cases newGrade <;> simp [scoreDelta] <;> omega
  have hscore : ((applyGrade sub questionText newGrade).2).score =
      sub.score + scoreDelta (lookupKey questionText sub.openAnswerGrades) newGrade := by
    simp only [applyGrade]
    rw [if_neg (by omega)]
  refine ⟨scoreDelta_eq_specScoreChange _ _, ?_, ?_, ?_⟩
  · rw [hscore]; rfl
  · exact lookupKey_setKey_self _ _ _
  · show (trueCount (setKey questionText newGrade sub.openAnswerGrades) : Int) ≤ _
    rw [hscore, htc]
    omega

/-- C1 witness: a submission with one `true` verdict and score 1 is re-marked
incorrect; the score drops by exactly the table's −1. -/
theorem applyGrade_transition_witness :
    (trueCount [("Q", true)] : Int) ≤ (1 : Int) ∧
    ((applyGrade ⟨"S", "Bob Smith", [], [], [("Q", true)], 1, 0, "t0"⟩ "Q" false).2).score =
      1 + ((applyGrade ⟨"S", "Bob Smith", [], [], [("Q", true)], 1, 0, "t0"⟩ "Q" false).1).scoreChange :=
  ⟨by decide,
    (applyGrade_transition ⟨"S", "Bob Smith", [], [], [("Q", true)], 1, 0, "t0"⟩ "Q" false
      (by decide)).2.1⟩

/-! ## C6 — the score floor -/

theorem markOnList_nonneg (studentName questionText : String) (c : Bool)
    (subs : List Submission) (r : MarkResult) (subs' : List Submission)
    (h : markOnList studentName questionText c subs = some (r, subs'))
    (hn : allScoresNonneg subs) : allScoresNonneg subs' := by
  induction subs generalizing r subs' with
  | nil => simp [markOnList] at h
  | cons sub rest ih =>
    simp only [markOnList] at h
    by_cases hname : (sub.studentName == studentName) = true
    · rw [if_pos hname] at h
      simp only [Option.some.injEq, Prod.mk.injEq] at h
      obtain ⟨-, rfl⟩ := h
      intro s hs
      rcases List.mem_cons.mp hs with rfl | hs
      · exact applyGrade_score_nonneg _ _ _
      · exact hn s (List.mem_cons_of_mem _ hs)
    · rw [if_neg hname] at h
      match hrec : markOnList studentName questionText c rest with
      | none => rw [hrec] at h; exact absurd h (by simp)
      | some (r0, rest') =>
        rw [hrec] at h
        simp only [Option.some.injEq, Prod.mk.injEq] at h
        obtain ⟨-, rfl⟩ := h
        have hrest : allScoresNonneg rest := fun s hs => hn s (List.mem_cons_of_mem _ hs)
        intro s hs
        rcases List.mem_cons.mp hs with rfl | hs
        · exact hn s (List.mem_cons_self _ _)
        · exact ih r0 rest' hrec hrest s hs

theorem markOpenAnswer_nonneg (users : List User) (questions : List Question)
    (subs : List Submission) (token studentName questionText : String)
    (isCorrect : Option Bool) (hn : allScoresNonneg subs) :
    allScoresNonneg (markOpenAnswer users questions subs token studentName questionText
      isCorrect).2 := by
  unfold markOpenAnswer
  rcases isCorrect with _ | c
  · exact hn
  · split_ifs with hval
    · exact hn
    · match hfind : users.find? (fun u => u.id == token && u.role == "teacher") with
      | none => simp only [hfind]; exact hn
      | some u =>
        simp only [hfind]
        match hm : markOnList studentName questionText c subs with
        | none => simp only [hm]; exact hn
        | some (r, subs') =>
          simp only [hm]
          match hq : (questions.filter fun q => q.qtype == "open-ended").find?
              (fun q => q.text == questionText) with
          | none => simp only [hq]; exact hn
          | some q0 =>
            simp only [hq]
            exact markOnList_nonneg _ _ _ _ _ _ hm hn

/-- C6: starting from any submissions state with all scores non-negative, no
sequence of mark-open-question calls can drive any persisted score below 0;
and each single grading step clamps the stored score to
`max 0 (score + scoreChange)`. -/
theorem score_floor (users : List User) (questions : List Question) (ops : List MarkOp)
    (subs : List Submission) (h : allScoresNonneg subs) :
    allScoresNonneg (applyOps users questions ops subs)
    ∧ ∀ (sub : Submission) (questionText : String) (c : Bool),
        ((applyGrade sub questionText c).2).score =
          max 0 (sub.score + ((applyGrade sub questionText c).1).scoreChange) := by
  constructor
  · induction ops generalizing subs with
    | nil => exact h
    | cons op rest ih =>
      exact ih _ (markOpenAnswer_nonneg users questions subs op.token op.studentName
        op.questionText op.isCorrect h)
  · intro sub questionText c
    simp only [applyGrade]
    split <;> omega

/-- C6 witness: a submission whose only verdict is `true` but whose score is
already 0 (an unreachable but representable state) is re-marked incorrect: the
clamp holds the score at 0 across the call sequence. -/
theorem score_floor_witness :
    allScoresNonneg [⟨"S", "Bob Smith", [], [], [("Q", true)], 0, 0, "t0"⟩] ∧
    allScoresNonneg (applyOps [⟨"T", "Ada", "Lovelace", "teacher"⟩]
      [⟨"q1", "Q", "open-ended", [], ""⟩]
      [⟨"T", "Bob Smith", "Q", some false⟩]
      [⟨"S", "Bob Smith", [], [], [("Q", true)], 0, 0, "t0"⟩]) :=
  ⟨by simp only [allScoresNonneg]; decide,
    (score_floor [⟨"T", "Ada", "Lovelace", "teacher"⟩] [⟨"q1", "Q", "open-ended", [], ""⟩]
      [⟨"T", "Bob Smith", "Q", some false⟩]
      [⟨"S", "Bob Smith", [], [], [("Q", true)], 0, 0, "t0"⟩]
      (by simp only [allScoresNonneg]; decide)).1⟩

/-! ## C5 — re-grading idempotence -/

theorem applyGrade_twice (sub : Submission) (questionText : String) (c : Bool) :
    ((applyGrade (applyGrade sub questionText c).2 questionText c).1).scoreChange = 0 ∧
    ((applyGrade (applyGrade sub questionText c).2 questionText c).1).updatedScore =
      ((applyGrade sub questionText c).1).updatedScore := by
  have hd : scoreDelta (some c) c = 0 := by cases c <;> rfl
  constructor <;> simp only [applyGrade, lookupKey_setKey_self, hd] <;>
    split_ifs <;> omega

theorem markOnList_twice (studentName questionText : String) (c : Bool)
    (subs : List Submission) (r1 : MarkResult) (subs1 : List Submission)
    (h : markOnList studentName questionText c subs = some (r1, subs1)) :
    ∃ r2 subs2, markOnList studentName questionText c subs1 = some (r2, subs2) ∧
      r2.scoreChange = 0 ∧ r2.updatedScore = r1.updatedScore := by
  induction subs generalizing r1 subs1 with
  | nil => simp [markOnList] at h
  | cons sub rest ih =>
    simp only [markOnList] at h
    by_cases hname : (sub.studentName == studentName) = true
    · rw [if_pos hname] at h
      simp only [Option.some.injEq, Prod.mk.injEq] at h
      obtain ⟨rfl, rfl⟩ := h
      have hname' :
          (((applyGrade sub questionText c).2).studentName == studentName) = true := by
        have hsn : ((applyGrade sub questionText c).2).studentName = sub.studentName := rfl
        rw [hsn]; exact hname
      refine ⟨(applyGrade (applyGrade sub questionText c).2 questionText c).1,
        (applyGrade (applyGrade sub questionText c).2 questionText c).2 :: rest,
        by simp only [markOnList, if_pos hname'],
        (applyGrade_twice sub questionText c).1,
        (applyGrade_twice sub questionText c).2⟩
    · rw [if_neg hname] at h
      match hrec : markOnList studentName questionText c rest with
      | none => rw [hrec] at h; exact absurd h (by simp)
      | some (r0, rest') =>
        rw [hrec] at h
        simp only [Option.some.injEq, Prod.mk.injEq] at h
        obtain ⟨rfl, rfl⟩ := h
        obtain ⟨r2, rest2, h2, hz, hu⟩ := ih r0 rest' hrec
        exact ⟨r2, sub :: rest2, by simp only [markOnList, if_neg hname, h2], hz, hu⟩

/-- C5: when a mark-open-question call succeeds, repeating it with the same
`isCorrect` verdict succeeds again with `scoreChange = 0` and an
`updatedScore` equal to the score after the first call. -/
theorem markOpenAnswer_idempotent (users : List User) (questions : List Question)
    (subs : List Submission) (token studentName questionText : String) (c : Bool)
    (r1 : MarkResult) (subs1 : List Submission)
    (h : markOpenAnswer users questions subs token studentName questionText (some c) =
      (.ok r1, subs1)) :
    ∃ r2 subs2,
      markOpenAnswer users questions subs1 token studentName questionText (some c) =
        (.ok r2, subs2) ∧ r2.scoreChange = 0 ∧ r2.updatedScore = r1.updatedScore := by
  simp only [markOpenAnswer] at h ⊢
  by_cases hval : token = "" ∨ studentName = "" ∨ questionText = ""
  · rw [if_pos hval] at h; exact absurd h (by simp)
  · rw [if_neg hval] at h
    simp only [if_neg hval]
    match hfind : users.find? (fun u => u.id == token && u.role == "teacher") with
    | none => rw [hfind] at h; exact absurd h (by simp)
    | some u =>
      rw [hfind] at h
      simp only [hfind]
      match hm : markOnList studentName questionText c subs with
      | none => rw [hm] at h; exact absurd h (by simp)
      | some (r, subs') =>
        rw [hm] at h
        match hq : (questions.filter fun q => q.qtype == "open-ended").find?
            (fun q => q.text == questionText) with
        | none => rw [hq] at h; exact absurd h (by simp)
        | some q0 =>
          rw [hq] at h
          simp only [Prod.mk.injEq, Except.ok.injEq] at h
          obtain ⟨rfl, rfl⟩ := h
          obtain ⟨r2, subs2, h2, hz, hu⟩ := markOnList_twice _ _ _ _ _ _ hm
          refine ⟨r2, subs2, ?_, hz, hu⟩
          simp only [h2, hq]

/-- C5 witness: an ungraded open answer is marked correct (`updatedScore = 1`),
then marked correct again: the second call reports `scoreChange = 0` and
`updatedScore = 1`. -/
theorem markOpenAnswer_idempotent_witness :
    ∃ r2 subs2,
      markOpenAnswer [⟨"T", "Ada", "Lovelace", "teacher"⟩]
        [⟨"q1", "Q", "open-ended", [], ""⟩]
        [⟨"S", "Bob Smith", [], [], [("Q", true)], 1, 0, "t0"⟩]
        "T" "Bob Smith" "Q" (some true) = (.ok r2, subs2) ∧
      r2.scoreChange = 0 ∧ r2.updatedScore = 1 := by
  obtain ⟨r2, subs2, h2, hz, hu⟩ :=
    markOpenAnswer_idempotent [⟨"T", "Ada", "Lovelace", "teacher"⟩]
      [⟨"q1", "Q", "open-ended", [], ""⟩]
      [⟨"S", "Bob Smith", [], [], [], 0, 0, "t0"⟩]
      "T" "Bob Smith" "Q" true ⟨1, none, true, 1⟩
      [⟨"S", "Bob Smith", [], [], [("Q", true)], 1, 0, "t0"⟩] rfl
  exact ⟨r2, subs2, h2, hz, hu⟩

/-! ## C3 — duplicate submissions are rejected -/

/-- C3: a submit call for a token that already has a submission always fails
with `DuplicateSubmission` (whatever the answers) and leaves the submissions
collection unchanged; moreover the submit handler preserves the
at-most-one-submission-per-token invariant from any state. -/
theorem submit_duplicate_rejected (users : List User) (questions : List Question)
    (subs : List Submission) (token : String) (answers : List (String × String))
    (submittedAt : String)
    (htok : token ≠ "")
    (hstud : ∃ u ∈ users, u.id = token ∧ u.role = "student")
    (hdup : ∃ sub ∈ subs, sub.token = token) :
    submit users questions subs token (some answers) submittedAt =
      (.error .duplicateSubmission, subs)
    ∧ ∀ (users2 : List User) (subs2 : List Submission) (token2 : String)
        (answers2 : Option (List (String × String))) (t2 : String),
        atMostOnePerToken subs2 →
        atMostOnePerToken (submit users2 questions subs2 token2 answers2 t2).2 := by
  constructor
  · obtain ⟨u, hu, hid, hrole⟩ := hstud
    obtain ⟨s, hs, hstok⟩ := hdup
    have hu' : ((users.find? fun u => u.id == token && u.role == "student")).isSome :=
      List.find?_isSome.mpr ⟨u, hu, by simp [hid, hrole]⟩
    obtain ⟨u0, hu0⟩ := Option.isSome_iff_exists.mp hu'
    have hs' : ((subs.find? fun sub => sub.token == token)).isSome :=
      List.find?_isSome.mpr ⟨s, hs, by simp [hstok]⟩
    obtain ⟨s0, hs0⟩ := Option.isSome_iff_exists.mp hs'
    simp only [submit, if_neg htok, hu0, hs0]
  · intro users2 subs2 token2 answers2 t2 hp
    match answers2 with
    | none => exact hp
    | some ans2 =>
      simp only [submit]
      split_ifs with htok2
      · exact hp
      · match hu2 : users2.find? (fun u => u.id == token2 && u.role == "student") with
        | none => simp only [hu2]; exact hp
        | some u2 =>
          simp only [hu2]
          match hfn : subs2.find? (fun sub => sub.token == token2) with
          | some s2 => simp only [hfn]; exact hp
          | none =>
            simp only [hfn]
            refine List.pairwise_append.mpr ⟨hp, List.pairwise_singleton _ _, ?_⟩
            intro a ha b hb
            have hb' : b.token = token2 := by
              rcases List.mem_singleton.mp hb with rfl
              rfl
            have := List.find?_eq_none.mp hfn a ha
            simp only [beq_iff_eq] at this
            rw [hb']
            exact this

/-- C3 witness: the student token `"S"` already has a submission; a second
submit with different answers is rejected and the store is unchanged. -/
theorem submit_duplicate_rejected_witness :
    submit [⟨"S", "Bob", "Smith", "student"⟩] []
      [⟨"S", "Bob Smith", [], [], [], 0, 0, "t0"⟩]
      "S" (some [("q1", "A")]) "t1" =
      (.error .duplicateSubmission, [⟨"S", "Bob Smith", [], [], [], 0, 0, "t0"⟩]) :=
  (submit_duplicate_rejected [⟨"S", "Bob", "Smith", "student"⟩] []
    [⟨"S", "Bob Smith", [], [], [], 0, 0, "t0"⟩] "S" [("q1", "A")] "t1"
    (by decide) (by decide) (by decide)).1

/-! ## C4 — the submission-time grading pass -/

theorem gradeLoop_totalMCQs (answers : List (String × String)) (qs : List Question)
    (acc : GradeAcc) :
    (gradeLoop answers acc qs).totalMCQs =
      acc.totalMCQs + (qs.filter fun q => q.qtype == "multiple-choice").length := by
  induction qs generalizing acc with
  | nil => simp [gradeLoop]
  | cons q rest ih =>
    simp only [gradeLoop, List.filter_cons]
    by_cases h : q.qtype = "multiple-choice"
    · simp [gradeStep, h, ih]
      omega
    · by_cases h2 : q.qtype = "open-ended" <;> simp [gradeStep, h, h2, ih]

theorem gradeLoop_score (answers : List (String × String)) (qs : List Question)
    (acc : GradeAcc) :
    (gradeLoop answers acc qs).score =
      acc.score +
        ((qs.filter fun q => q.qtype == "multiple-choice" && mcqHit answers q).length : Int) := by
  induction qs generalizing acc with
  | nil => simp [gradeLoop]
  | cons q rest ih =>
    simp only [gradeLoop, List.filter_cons]
    by_cases h : q.qtype = "multiple-choice"
    · by_cases hhit : mcqHit answers q = true
      · simp [gradeStep, h, hhit, ih]
        omega
      · simp [gradeStep, h, hhit, ih]
    · by_cases h2 : q.qtype = "open-ended" <;> simp [gradeStep, h, h2, ih]

theorem gradeLoop_openLookup (answers : List (String × String)) (qs : List Question)
    (acc : GradeAcc) (i : String) :
    lookupKey i (gradeLoop answers acc qs).openEndedAnswers =
      if qs.any (fun q => q.qtype == "open-ended" && q.id == i) then
        some (openValue answers i)
      else lookupKey i acc.openEndedAnswers := by
  induction qs generalizing acc with
  | nil => simp [gradeLoop]
  | cons q rest ih =>
    simp only [gradeLoop, List.any_cons]
    by_cases h : q.qtype = "multiple-choice"
    · have hne : q.qtype ≠ "open-ended" := by rw [h]; decide
      simp [gradeStep, h, hne, ih]
    · by_cases h2 : q.qtype = "open-ended"
      · rw [ih]
        by_cases hrest : rest.any (fun q => q.qtype == "open-ended" && q.id == i) = true
        · simp [hrest, h2]
        · by_cases hid : q.id = i
          · subst hid
            simp [gradeStep, h, h2, hrest, lookupKey_setKey_self]
          · simp [gradeStep, h, h2, hrest, hid, lookupKey_setKey_ne _ _ _ _ hid]
      · simp [gradeStep, h, h2, ih]

/-- C4 (amended): the grading pass counts every multiple-choice question into
`totalMCQs`; the score is the number of multiple-choice questions whose
submitted answer exists, is non-empty, and matches `correctAnswer`
case-insensitively; and for every open-ended question the stored value reads
back as the submitted answer when present and non-empty, and as the literal
`"No answer"` otherwise. -/
theorem gradeSubmission_characterization (questions : List Question)
    (answers : List (String × String)) :
    (gradeSubmission questions answers).totalMCQs =
      (questions.filter fun q => q.qtype == "multiple-choice").length
    ∧ (gradeSubmission questions answers).score =
      ((questions.filter fun q => q.qtype == "multiple-choice" && mcqHit answers q).length :
        Int)
    ∧ ∀ q ∈ questions, q.qtype = "open-ended" →
        lookupKey q.id (gradeSubmission questions answers).openEndedAnswers =
          some (openValue answers q.id) := by
  refine ⟨?_, ?_, ?_⟩
  · simpa [gradeSubmission] using gradeLoop_totalMCQs answers questions ⟨0, 0, []⟩
  · simpa [gradeSubmission] using gradeLoop_score answers questions ⟨0, 0, []⟩
  · intro q hq hqt
    rw [gradeSubmission, gradeLoop_openLookup, if_pos]
    exact List.any_eq_true.mpr ⟨q, hq, by simp [hqt]⟩

/-- C4 counterexample: with one multiple-choice question whose
`correctAnswer` is `""` and one open-ended question, and both answers
submitted as the empty string, the code scores 0 and stores `"No answer"`
(an empty answer is falsy), while the claim's reading — answer exists and
matches case-insensitively / placeholder only when absent — scores 1 and
stores `""`. -/
theorem gradeSubmission_empty_answer_counterexample :
    gradeSubmission
        [⟨"q1", "t", "multiple-choice", [], ""⟩, ⟨"q2", "u", "open-ended", [], ""⟩]
        [("q1", ""), ("q2", "")] =
      ⟨0, 1, [("q2", "No answer")]⟩ ∧
    gradeSubmissionSpec
        [⟨"q1", "t", "multiple-choice", [], ""⟩, ⟨"q2", "u", "open-ended", [], ""⟩]
        [("q1", ""), ("q2", "")] =
      ⟨1, 1, [("q2", "")]⟩ := by
  decide

/-- C4 witness: a present, non-empty open-ended answer is stored verbatim. -/
theorem gradeSubmission_characterization_witness :
    lookupKey "q2"
      (gradeSubmission [⟨"q2", "u", "open-ended", [], ""⟩] [("q2", "hello")]).openEndedAnswers =
      some (openValue [("q2", "hello")] "q2") :=
  (gradeSubmission_characterization [⟨"q2", "u", "open-ended", [], ""⟩]
    [("q2", "hello")]).2.2 ⟨"q2", "u", "open-ended", [], ""⟩ (by decide) rfl

/-! ## C7 — sign-in idempotence -/

/-- C7: after any successful sign-in, signing in again with the same name up
to letter casing returns exactly the first call's token and role and leaves
the users collection unchanged (a new user record is persisted only by the
first call). -/
theorem signin_idempotent (teachers : List Teacher) (users : List User)
    (newId newId2 : String) (fn ln fn2 ln2 : String)
    (hfn : fn ≠ "") (hln : ln ≠ "") (hfn2 : fn2 ≠ "") (hln2 : ln2 ≠ "")
    (hf : jsToLower fn2 = jsToLower fn) (hl : jsToLower ln2 = jsToLower ln)
    (tok role : String) (users1 : List User)
    (h : signin teachers users newId fn ln = (.ok (tok, role), users1)) :
    signin teachers users1 newId2 fn2 ln2 = (.ok (tok, role), users1) := by
  have hval : ¬(fn = "" ∨ ln = "") := not_or.mpr ⟨hfn, hln⟩
  have hval2 : ¬(fn2 = "" ∨ ln2 = "") := not_or.mpr ⟨hfn2, hln2⟩
  have hpred : (fun u : User => nameMatches fn2 ln2 u.firstName u.lastName) =
      (fun u : User => nameMatches fn ln u.firstName u.lastName) := by
    funext u
    simp [nameMatches, hf, hl]
  simp only [signin, if_neg hval] at h
  simp only [signin, if_neg hval2, hpred]
  match hu : users.find? (fun u => nameMatches fn ln u.firstName u.lastName) with
  | some u =>
    rw [hu] at h
    simp only [Prod.mk.injEq, Except.ok.injEq] at h
    obtain ⟨⟨htok, hrole⟩, husers⟩ := h
    subst husers
    simp only [hu, htok, hrole]
  | none =>
    rw [hu] at h
    simp only [Prod.mk.injEq, Except.ok.injEq] at h
    obtain ⟨⟨htok, hrole⟩, husers⟩ := h
    subst htok
    subst hrole
    subst husers
    have hself : nameMatches fn ln fn ln = true := by simp [nameMatches]
    have happ :
        ((users ++
            [{ id := newId, firstName := fn, lastName := ln,
               role := if teachers.any fun t =>
                   nameMatches fn ln t.firstName t.lastName then "teacher"
                 else "student" : User}]).find?
          fun u => nameMatches fn ln u.firstName u.lastName) =
          some { id := newId, firstName := fn, lastName := ln,
                 role := if teachers.any fun t =>
                     nameMatches fn ln t.firstName t.lastName then "teacher"
                   else "student" } := by
      rw [List.find?_append, hu]
      simp [List.find?_cons, hself]
    simp only [happ]

/-- C7 witness: "Ada Lovelace" signs in (new record, token `"tok1"`); a second
sign-in as "ADA lovelace" returns the same token and role and persists
nothing new. -/
theorem signin_idempotent_witness :
    signin [] [⟨"tok1", "Ada", "Lovelace", "student"⟩] "tok2" "ADA" "lovelace" =
      (.ok ("tok1", "student"), [⟨"tok1", "Ada", "Lovelace", "student"⟩]) :=
  signin_idempotent [] [] "tok1" "tok2" "Ada" "Lovelace" "ADA" "lovelace"
    (by decide) (by decide) (by decide) (by decide) (by decide) (by decide)
    "tok1" "student" [⟨"tok1", "Ada", "Lovelace", "student"⟩] rfl

/-! ## C10 — submission lookup is exact and first-match -/

theorem markOnList_none (studentName questionText : String) (c : Bool)
    (subs : List Submission) (h : ∀ s ∈ subs, s.studentName ≠ studentName) :
    markOnList studentName questionText c subs = none := by
  induction subs with
  | nil => rfl
  | cons sub rest ih =>
    have hname : ¬(sub.studentName == studentName) = true := by
      simp only [beq_iff_eq]
      exact h sub (List.mem_cons_self _ _)
    simp only [markOnList, if_neg hname,
      ih fun s hs => h s (List.mem_cons_of_mem _ hs)]

theorem markOnList_length (studentName questionText : String) (c : Bool)
    (subs : List Submission) (r : MarkResult) (subs' : List Submission)
    (h : markOnList studentName questionText c subs = some (r, subs')) :
    subs'.length = subs.length := by
  induction subs generalizing r subs' with
  | nil => simp [markOnList] at h
  | cons sub rest ih =>
    simp only [markOnList] at h
    by_cases hname : (sub.studentName == studentName) = true
    · rw [if_pos hname] at h
      simp only [Option.some.injEq, Prod.mk.injEq] at h
      obtain ⟨-, rfl⟩ := h
      simp
    · rw [if_neg hname] at h
      match hrec : markOnList studentName questionText c rest with
      | none => rw [hrec] at h; exact absurd h (by simp)
      | some (r0, rest') =>
        rw [hrec] at h
        simp only [Option.some.injEq, Prod.mk.injEq] at h
        obtain ⟨-, rfl⟩ := h
        simpa using ih r0 rest' hrec

theorem markOnList_preserves_later (studentName questionText : String) (c : Bool)
    (subs : List Submission) (r : MarkResult) (subs' : List Submission)
    (h : markOnList studentName questionText c subs = some (r, subs')) :
    ∀ j (hj : j < subs'.length) (hj' : j < subs.length),
      (∃ i, ∃ hi : i < subs.length, i < j ∧ (subs.get ⟨i, hi⟩).studentName = studentName) →
      subs'.get ⟨j, hj⟩ = subs.get ⟨j, hj'⟩ := by
  induction subs generalizing r subs' with
  | nil => simp [markOnList] at h
  | cons sub rest ih =>
    simp only [markOnList] at h
    by_cases hname : (sub.studentName == studentName) = true
    · rw [if_pos hname] at h
      simp only [Option.some.injEq, Prod.mk.injEq] at h
      obtain ⟨-, rfl⟩ := h
      intro j hj hj' hex
      match j with
      | 0 =>
        obtain ⟨i, hi, hij, -⟩ := hex
        omega
      | j + 1 => rfl
    · rw [if_neg hname] at h
      match hrec : markOnList studentName questionText c rest with
      | none => rw [hrec] at h; exact absurd h (by simp)
      | some (r0, rest') =>
        rw [hrec] at h
        simp only [Option.some.injEq, Prod.mk.injEq] at h
        obtain ⟨-, rfl⟩ := h
        intro j hj hj' hex
        obtain ⟨i, hi, hij, hmatch⟩ := hex
        match i, j with
        | 0, j =>
          exfalso
          exact absurd (beq_iff_eq.mpr hmatch) hname
        | i + 1, 0 => omega
        | i + 1, j + 1 =>
          have hi' : i < rest.length := by simpa using hi
          exact ih r0 rest' hrec j (by simpa using hj) (by simpa using hj')
            ⟨i, hi', by omega, hmatch⟩

theorem markOpenAnswer_state (users : List User) (questions : List Question)
    (subs : List Submission) (token studentName questionText : String)
    (isCorrect : Option Bool) :
    (markOpenAnswer users questions subs token studentName questionText isCorrect).2 = subs ∨
    ∃ c r subs', isCorrect = some c ∧
      markOnList studentName questionText c subs = some (r, subs') ∧
      (markOpenAnswer users questions subs token studentName questionText isCorrect).2 =
        subs' := by
  rcases isCorrect with _ | c
  · left; rfl
  · simp only [markOpenAnswer]
    split_ifs with hval
    · left; rfl
    · match hu : users.find? (fun u => u.id == token && u.role == "teacher") with
      | none => left; simp only [hu]
      | some u =>
        simp only [hu]
        match hm : markOnList studentName questionText c subs with
        | none => left; simp only [hm]
        | some (r, subs') =>
          simp only [hm]
          match hq : (questions.filter fun q => q.qtype == "open-ended").find?
              (fun q => q.text == questionText) with
          | none => left; simp only [hq]
          | some q0 => right; exact ⟨c, r, subs', rfl, hm, by simp only [hq]⟩

/-- C10: the mark-open-question route locates the target submission by exact,
case-sensitive equality on the stored `studentName`, taking the first match in
submission order: when no stored submission carries exactly the requested name
(in particular when the request differs only in casing), the route fails with
the submission `NotFound` error and changes nothing; and every submission
strictly after an earlier same-named one is never modified, so of two
submissions sharing a full name only the earlier is ever graded. -/
theorem markOpenAnswer_exact_first_match (users : List User) (questions : List Question)
    (subs : List Submission) (token studentName questionText : String) (c : Bool)
    (htok : token ≠ "") (hname : studentName ≠ "") (hqt : questionText ≠ "")
    (hteach : ∃ u ∈ users, u.id = token ∧ u.role = "teacher") :
    ((∀ sub ∈ subs, sub.studentName ≠ studentName) →
      markOpenAnswer users questions subs token studentName questionText (some c) =
        (.error .submissionNotFound, subs))
    ∧ ((markOpenAnswer users questions subs token studentName questionText
        (some c)).2).length = subs.length
    ∧ ∀ j (hj : j < ((markOpenAnswer users questions subs token studentName questionText
          (some c)).2).length) (hj' : j < subs.length),
        (∃ i, ∃ hi : i < subs.length,
          i < j ∧ (subs.get ⟨i, hi⟩).studentName = studentName) →
        ((markOpenAnswer users questions subs token studentName questionText
          (some c)).2).get ⟨j, hj⟩ = subs.get ⟨j, hj'⟩ := by
  have hval : ¬(token = "" ∨ studentName = "" ∨ questionText = "") := by
    simp [htok, hname, hqt]
  obtain ⟨u, hu, hid, hrole⟩ := hteach
  have hfind : ((users.find? fun u => u.id == token && u.role == "teacher")).isSome :=
    List.find?_isSome.mpr ⟨u, hu, by simp [hid, hrole]⟩
  obtain ⟨u0, hu0⟩ := Option.isSome_iff_exists.mp hfind
  refine ⟨fun hnone => ?_, ?_, ?_⟩
  · simp only [markOpenAnswer, if_neg hval, hu0,
      markOnList_none studentName questionText c subs hnone]
  · rcases markOpenAnswer_state users questions subs token studentName questionText
        (some c) with hst | ⟨c', r, subs', hc, hm, hst⟩
    · rw [hst]
    · obtain rfl : c = c' := by injection hc
      rw [hst]
      exact markOnList_length _ _ _ _ _ _ hm
  · intro j hj hj' hex
    rcases markOpenAnswer_state users questions subs token studentName questionText
        (some c) with hst | ⟨c', r, subs', hc, hm, hst⟩
    · exact List.get_of_eq hst ⟨j, hj⟩
    · obtain rfl : c = c' := by injection hc
      exact (List.get_of_eq hst ⟨j, hj⟩).trans
        (markOnList_preserves_later studentName questionText c subs r subs' hm j
          (hst ▸ hj) hj' hex)

/-- C10 witness: two submissions both named "Bob Smith": (i) querying
"bob smith" (casing differs from the stored snapshot) yields the
`NotFound` error and leaves the store unchanged; (ii) marking "Bob Smith"
leaves the second (later) same-named submission unchanged. -/
theorem markOpenAnswer_exact_first_match_witness :
    markOpenAnswer [⟨"T", "Ada", "Lovelace", "teacher"⟩]
        [⟨"q1", "Q", "open-ended", [], ""⟩]
        [⟨"S1", "Bob Smith", [], [], [], 0, 0, "t0"⟩,
         ⟨"S2", "Bob Smith", [], [], [], 0, 0, "t1"⟩]
        "T" "bob smith" "Q" (some true) =
      (.error .submissionNotFound,
        [⟨"S1", "Bob Smith", [], [], [], 0, 0, "t0"⟩,
         ⟨"S2", "Bob Smith", [], [], [], 0, 0, "t1"⟩]) ∧
    ((markOpenAnswer [⟨"T", "Ada", "Lovelace", "teacher"⟩]
        [⟨"q1", "Q", "open-ended", [], ""⟩]
        [⟨"S1", "Bob Smith", [], [], [], 0, 0, "t0"⟩,
         ⟨"S2", "Bob Smith", [], [], [], 0, 0, "t1"⟩]
        "T" "Bob Smith" "Q" (some true)).2).get ⟨1, by decide⟩ =
      ⟨"S2", "Bob Smith", [], [], [], 0, 0, "t1"⟩ := by
  constructor
  · exact (markOpenAnswer_exact_first_match [⟨"T", "Ada", "Lovelace", "teacher"⟩]
      [⟨"q1", "Q", "open-ended", [], ""⟩]
      [⟨"S1", "Bob Smith", [], [], [], 0, 0, "t0"⟩,
       ⟨"S2", "Bob Smith", [], [], [], 0, 0, "t1"⟩]
      "T" "bob smith" "Q" true (by decide) (by decide) (by decide)
      (by decide)).1 (by decide)
  · exact (markOpenAnswer_exact_first_match [⟨"T", "Ada", "Lovelace", "teacher"⟩]
      [⟨"q1", "Q", "open-ended", [], ""⟩]
      [⟨"S1", "Bob Smith", [], [], [], 0, 0, "t0"⟩,
       ⟨"S2", "Bob Smith", [], [], [], 0, 0, "t1"⟩]
      "T" "Bob Smith" "Q" true (by decide) (by decide) (by decide)
      (by decide)).2.2 1 (by decide) (by decide) ⟨0, by decide, by decide, by decide⟩

/-! ## C2 — the session gate -/

/-- C2 (amended): the gate fails with `Ended` exactly when the latest session
exists and `now > endTime` (this condition is checked first); it fails with
`NotStarted` exactly when no session exists, or when `now < startTime` and
`now ≤ endTime`; otherwise it succeeds with `remainingMs = endTime − now`.
In the under-specified corner `endTime < now < startTime` the gate therefore
returns `Ended`, not `NotStarted`. -/
theorem gate_characterization (sessions : List Session) (now : Int) :
    (gate sessions now = .error .notStarted ↔
      sessions.getLast? = none ∨
        ∃ latest, sessions.getLast? = some latest ∧ now < latest.startTime ∧
          now ≤ latest.endTime)
    ∧ (gate sessions now = .error .ended ↔
        ∃ latest, sessions.getLast? = some latest ∧ latest.endTime < now)
    ∧ ∀ r, gate sessions now = .ok r ↔
        ∃ latest, sessions.getLast? = some latest ∧ latest.startTime ≤ now ∧
          now ≤ latest.endTime ∧ r = latest.endTime - now := by
  unfold gate
  match h : sessions.getLast? with
  | none => simp
  | some latest =>
    simp only [h]
    refine ⟨?_, ?_, fun r => ?_⟩ <;> split_ifs with h1 h2 <;> simp [h] <;> omega

/-- C2 counterexample: on the session `{startTime := 10, endTime := 5}` at
`now = 7` (so `endTime < now < startTime`), the code returns `Ended`, while
the claim's listing order — `NotStarted` conditions first — demands
`NotStarted`. -/
theorem gate_inverted_session_counterexample :
    gate [⟨10, 5⟩] 7 = .error .ended ∧
    gateSpec [⟨10, 5⟩] 7 = .error .notStarted ∧
    ((5 : Int) < 7 ∧ (7 : Int) < 10) :=
  ⟨rfl, rfl, by omega⟩

/-! ## C8 — the answer key is stripped from served questions -/

/-- C8: whenever `GET /questions` succeeds, the served list has one entry per
stored question; each served question has no `correctAnswer` field, and every
other field reads back exactly as in the stored question. -/
theorem getQuestions_strips_answer_key (sessions : List Session) (now : Int)
    (rawQuestions : List (List (String × String))) (rem : Int)
    (out : List (List (String × String)))
    (h : getQuestions sessions now rawQuestions = .ok (rem, out)) :
    out.length = rawQuestions.length ∧
    ∀ i (hi : i < out.length) (hi' : i < rawQuestions.length),
      lookupKey "correctAnswer" (out.get ⟨i, hi⟩) = none ∧
      ∀ k, k ≠ "correctAnswer" →
        lookupKey k (out.get ⟨i, hi⟩) = lookupKey k (rawQuestions.get ⟨i, hi'⟩) := by
  unfold getQuestions at h
  match hg : gate sessions now with
  | .error e => rw [hg] at h; exact absurd h (by simp)
  | .ok r =>
    rw [hg] at h
    simp only [Except.ok.injEq, Prod.mk.injEq] at h
    obtain ⟨-, rfl⟩ := h
    refine ⟨List.length_map _ _, fun i hi hi' => ?_⟩
    have hget : (rawQuestions.map stripCorrectAnswer).get ⟨i, hi⟩ =
        stripCorrectAnswer (rawQuestions.get ⟨i, hi'⟩) := by
      simp [List.get_eq_getElem]
    rw [hget]
    exact ⟨lookupKey_stripCorrectAnswer_self _,
      fun k hk => lookupKey_stripCorrectAnswer_other k hk _⟩

/-- C8 witness: a concrete open session and one raw question with an
`id`, a `correctAnswer` and a `text` field. -/
theorem getQuestions_strips_answer_key_witness :
    lookupKey "correctAnswer"
      (stripCorrectAnswer [("id", "q1"), ("correctAnswer", "a"), ("text", "T")]) = none ∧
    lookupKey "text"
      (stripCorrectAnswer [("id", "q1"), ("correctAnswer", "a"), ("text", "T")]) =
      lookupKey "text" [("id", "q1"), ("correctAnswer", "a"), ("text", "T")] := by
  have h := getQuestions_strips_answer_key [⟨0, 100⟩] 50
    [[("id", "q1"), ("correctAnswer", "a"), ("text", "T")]] 50
    ([[("id", "q1"), ("correctAnswer", "a"), ("text", "T")]].map stripCorrectAnswer) rfl
  have h2 := h.2 0 (by decide) (by decide)
  exact ⟨h2.1, h2.2 "text" (by decide)⟩

/-! ## C9 — score can exceed totalMCQs -/

/-- C9: a reachable state in which a submission's score exceeds its
`totalMCQs`.  With a single open-ended question, "Bob Smith" submits
(`score = 0`, `totalMCQs = 0`); the teacher marks the open answer correct,
raising the score to 1 while `totalMCQs` stays 0; `GET /teacher/results` then
reports `correctCount = 1 > 0 = totalQuestions` for that student. -/
theorem score_can_exceed_totalMCQs :
    let users : List User :=
      [⟨"T", "Ada", "Lovelace", "teacher"⟩, ⟨"S", "Bob", "Smith", "student"⟩]
    let questions : List Question := [⟨"q1", "Explain X", "open-ended", [], ""⟩]
    let subs1 := (submit users questions [] "S" (some []) "t0").2
    let subs2 :=
      (markOpenAnswer users questions subs1 "T" "Bob Smith" "Explain X" (some true)).2
    teacherResults subs2 = [⟨"Bob Smith", 1, 0⟩] ∧
      ∃ row ∈ teacherResults subs2, (row.totalQuestions : Int) < row.correctCount := by
  decide

end QuizApp
